import Mathlib

/-!
Shallow embedding of the GPS driving-tracker trajectory pipeline
(`app.py`, `services/points_smoother.py`, `services/interpolator.py`,
`services/valhalla_adapter.py`, `services/track_chunks_processor.py`,
`services/track_processor.py`, `services/timestamp_speed_adjuster.py`,
`functions/haversine.py`), together with proofs settling the frozen
claims about it.

Modelling conventions:
  * Python dict entries that may be missing are modelled by `Gps.Field`:
    a key can be absent, present with value `None`, or present with a value.
  * Latitudes/longitudes and timestamps are idealised as exact rationals
    (Python uses IEEE floats and `datetime`; timestamps are modelled as
    rational seconds, so `t2 - t1` models `(t2 - t1).total_seconds()`).
  * Trigonometric distance computations (`haversine`) are idealised over
    the real numbers, hence those definitions are `noncomputable`.
  * Raised Python exceptions are modelled with `Except Gps.PyErr`.
  * Logging calls are side effects with no influence on results and are
    not modelled.
-/

namespace Gps

/-- A Python dict entry: the key can be absent, present with `None`,
or present with a value. `p.get('k')` sees `absent` and `null` alike,
while `p['k']` raises `KeyError` only on `absent`. -/
inductive Field (α : Type) where
  | absent : Field α
  | null : Field α
  | val : α → Field α
deriving DecidableEq

instance {α : Type} : Inhabited (Field α) := ⟨.absent⟩

/-- Python `p.get('k')`: `None` for an absent key or a stored `None`. -/
def Field.get? {α : Type} : Field α → Option α
  | .val a => some a
  | _ => none

/-- Python `'k' in p`. -/
def Field.present {α : Type} : Field α → Bool
  | .absent => false
  | _ => true

/-- Python exceptions that the modelled code can raise. -/
inductive PyErr where
  | keyError : PyErr
  | typeError : PyErr
  | indexError : PyErr
  | linAlgError : PyErr
deriving DecidableEq

instance {eps alpha : Type} [DecidableEq eps] [DecidableEq alpha] :
    DecidableEq (Except eps alpha) := fun x y =>
  match x, y with
  | .ok a, .ok b =>
    if h : a = b then .isTrue (by rw [h]) else .isFalse (by intro hc; cases hc; exact h rfl)
  | .error a, .error b =>
    if h : a = b then .isTrue (by rw [h]) else .isFalse (by intro hc; cases hc; exact h rfl)
  | .ok _, .error _ => .isFalse (by intro hc; cases hc)
  | .error _, .ok _ => .isFalse (by intro hc; cases hc)

/-- A track point as the Python dicts `{'lat': .., 'lon': .., 'time': ..,
'speed': .., 'elevation': ..}` flowing through the pipeline: `lat`/`lon`
are always present (every code path reads them unconditionally), the
remaining keys may be absent or `None`. -/
structure TrackPoint where
  lat : ℚ
  lon : ℚ
  time : Field ℚ
  speed : Field ℚ
  elevation : Field ℚ
deriving DecidableEq

instance : Inhabited TrackPoint := ⟨⟨0, 0, .absent, .absent, .absent⟩⟩

/-- Shorthand for a point carrying only coordinates, as built by e.g.
`decode_polyline` (`{'lat': .., 'lon': ..}`). -/
def TrackPoint.mk2 (lat lon : ℚ) : TrackPoint :=
  ⟨lat, lon, .absent, .absent, .absent⟩

/-! ### functions/haversine.py and the copies of `haversine` in
`app.py` / `services/interpolator.py` -/

/-- Python `math.radians`. -/
noncomputable def radians (x : ℝ) : ℝ := x * Real.pi / 180

/-- Python `math.atan2`, written out by quadrant over `Real.arctan`. -/
noncomputable def atan2 (y x : ℝ) : ℝ :=
  if 0 < x then Real.arctan (y / x)
  else if x < 0 then
    (if 0 ≤ y then Real.arctan (y / x) + Real.pi else Real.arctan (y / x) - Real.pi)
  else
    (if 0 < y then Real.pi / 2 else if y < 0 then -(Real.pi / 2) else 0)

/-- `haversine(lat1, lon1, lat2, lon2)` from `functions/haversine.py`
(the identical copies in `app.py` and `services/interpolator.py` share
this embedding): great-circle distance in meters, Earth radius 6371000. -/
noncomputable def haversine (lat1 lon1 lat2 lon2 : ℚ) : ℝ :=
  let R : ℝ := 6371000
  let phi1 := radians lat1
  let phi2 := radians lat2
  let d_phi := phi2 - phi1
  let d_lambda := radians ((lon2 : ℝ) - (lon1 : ℝ))
  let a := Real.sin (d_phi / 2) ^ 2 +
    Real.cos phi1 * Real.cos phi2 * Real.sin (d_lambda / 2) ^ 2
  let c := 2 * atan2 (Real.sqrt a) (Real.sqrt (1 - a))
  R * c

/-- `haversine_distance` from `functions/haversine.py` (its `d_phi` is
`radians(lat2 - lat1)` rather than a difference of radians; the two
formulas agree). -/
noncomputable def haversine_distance (lat1 lon1 lat2 lon2 : ℚ) : ℝ :=
  let R : ℝ := 6371000
  let phi1 := radians lat1
  let phi2 := radians lat2
  let d_phi := radians ((lat2 : ℝ) - (lat1 : ℝ))
  let d_lambda := radians ((lon2 : ℝ) - (lon1 : ℝ))
  let a := Real.sin (d_phi / 2) ^ 2 +
    Real.cos phi1 * Real.cos phi2 * Real.sin (d_lambda / 2) ^ 2
  let c := 2 * atan2 (Real.sqrt a) (Real.sqrt (1 - a))
  R * c

/-! ### services/points_smoother.py, `smooth_track` (identical copies in
`services/interpolator.py` and `app.py`, differing only in the default
window argument, which is passed explicitly here) -/

/-- Effectful map over a list, mirroring a Python `for` loop whose body
may raise: the first raised exception aborts the whole computation. -/
def mapExcept {α β : Type} (f : α → Except PyErr β) : List α → Except PyErr (List β)
  | [] => .ok []
  | a :: as_ => do
    let b ← f a
    let bs ← mapExcept f as_
    .ok (b :: bs)

/-- Sum of `points[j].lat` for `j in range(i-half, i+half+1)` (the loop
body of `smooth_track`): `2*half + 1` summands, which is `window + 1` of
them when `window` is even, even though the divisor stays `window`.
Indices are in bounds at every call site. -/
def windowLatSum (points : List TrackPoint) (i half : ℕ) : ℚ :=
  ((List.range (2 * half + 1)).map fun k => (points.getD (i - half + k) default).lat).sum

/-- Sum of `points[j].lon` over the same `range(i-half, i+half+1)`. -/
def windowLonSum (points : List TrackPoint) (i half : ℕ) : ℚ :=
  ((List.range (2 * half + 1)).map fun k => (points.getD (i - half + k) default).lon).sum

/-- One iteration of the `for i in range(n)` loop of `smooth_track`:
edge indices copy the original point, interior indices build
`{'lat': avg_lat, 'lon': avg_lon, 'time': points[i]['time']}` — note the
direct `['time']` access, which raises `KeyError` when the key is absent,
and that no other key (in particular `speed`) is carried over. -/
def smoothAt (points : List TrackPoint) (window half n i : ℕ) : Except PyErr TrackPoint :=
  if i < half ∨ n - half - 1 < i then .ok (points.getD i default)
  else
    match (points.getD i default).time with
    | .absent => .error .keyError
    | t => .ok { lat := windowLatSum points i half / window,
                 lon := windowLonSum points i half / window,
                 time := t, speed := .absent, elevation := .absent }

/-- `smooth_track(points, window)`: moving-average smoothing. Returns the
input unchanged when `window < 3` or the track is shorter than the
window. -/
def smooth_track (points : List TrackPoint) (window : ℕ) : Except PyErr (List TrackPoint) :=
  if window < 3 ∨ points.length < window then .ok points
  else mapExcept (smoothAt points window (window / 2) points.length) (List.range points.length)

/-! ### services/interpolator.py, `interpolate_track` (the copy in
`app.py` is identical up to the default `max_time_gap`) -/

/-- The gap-filling body of one iteration of the `for i in range(len(points)-1)`
loop of `interpolate_track`: the points inserted between `p1` and `p2`.
Both `p1['time']` and `p2['time']` are read with direct indexing (a
`KeyError` when absent); `if t2 and t1` is datetime truthiness, i.e. both
non-`None`. `int(dist // 15)` is the floor of `dist / 15` (`dist ≥ 0`). -/
noncomputable def interpGap (max_time_gap : ℚ) (p1 p2 : TrackPoint) :
    Except PyErr (List TrackPoint) :=
  match p1.time, p2.time with
  | .absent, _ => .error .keyError
  | _, .absent => .error .keyError
  | t1f, t2f =>
    let t1 := t1f.get?
    let t2 := t2f.get?
    let dist := haversine p1.lat p1.lon p2.lat p2.lon
    let dt : ℚ := match t2, t1 with
      | some a, some b => a - b
      | _, _ => 0
    if 15 < dist ∨ max_time_gap < dt then
      let num_by_dist : ℤ := max 1 ⌊dist / 15⌋
      let num_by_time : ℤ := max 1 ⌊dt / max_time_gap⌋
      let num_new := max num_by_dist num_by_time
      .ok <| (List.range num_new.toNat).map fun k0 =>
        let frac : ℚ := ((k0 : ℚ) + 1) / ((num_new : ℚ) + 1)
        { lat := p1.lat + frac * (p2.lat - p1.lat),
          lon := p1.lon + frac * (p2.lon - p1.lon),
          time := match t1, t2 with
            | some a, some _ => .val (a + frac * dt)
            | _, _ => .null,
          speed := .absent, elevation := .absent }
    else .ok []

/-- The `for i in range(len(points)-1)` loop of `interpolate_track`:
appends `p1` and then any interpolated points, for each consecutive pair. -/
noncomputable def interpPairs (max_time_gap : ℚ) : List TrackPoint → Except PyErr (List TrackPoint)
  | [] => .ok []
  | [_] => .ok []
  | p1 :: p2 :: rest => do
    let gap ← interpGap max_time_gap p1 p2
    let tail ← interpPairs max_time_gap (p2 :: rest)
    .ok (p1 :: (gap ++ tail))

/-- `interpolate_track(points, max_time_gap)`: starts from `[points[0]]`,
runs the pair loop, and finally appends `points[-1]`. -/
noncomputable def interpolate_track (points : List TrackPoint) (max_time_gap : ℚ) :
    Except PyErr (List TrackPoint) :=
  match points with
  | [] => .ok []
  | p0 :: rest => do
    let mid ← interpPairs max_time_gap (p0 :: rest)
    .ok (p0 :: (mid ++ [(p0 :: rest).getLast (List.cons_ne_nil p0 rest)]))

/-! ### services/valhalla_adapter.py -/

/-- One `matched_points` entry of a Valhalla response; only its `lat` and
`lon` keys are read, modelled as present-with-number or absent. -/
structure MatchedPoint where
  mlat : Option ℚ
  mlon : Option ℚ
deriving DecidableEq

instance : Inhabited MatchedPoint := ⟨⟨none, none⟩⟩

/-- One `edges` entry of a Valhalla response: an optional encoded `shape`
polyline, given as the list of character codes of the encoded string. -/
structure ValhallaEdge where
  eshape : Option (List ℤ)
deriving DecidableEq

/-- The parsed JSON body of a Valhalla `trace_attributes` response,
restricted to the keys the adapter reads. `warnings`/`error_message` are
only tested for presence (their values are merely logged). -/
structure ValhallaJson where
  has_warnings : Bool
  has_error_message : Bool
  matched_points : Option (List MatchedPoint)
  shape : Option (List ℤ)
  edges : Option (List ValhallaEdge)
deriving DecidableEq

/-- An HTTP response from the map-match service: a status code and, if the
body parses as JSON, the parsed body (`json := none` models a body
`res.json()` raises `ValueError` on). -/
structure HttpResponse where
  status : ℕ
  json : Option ValhallaJson
deriving DecidableEq

/-- The inner `while True` varint loop of `decode_polyline`: consumes
characters until one with `b < 0x1f`; `none` models the `IndexError`
raised when the string ends mid-varint. `b << shift` on a (possibly
negative) Python int is `b * 2 ^ shift`. -/
def parseVarint : List ℤ → ℤ → ℕ → Option (ℤ × List ℤ)
  | [], _, _ => none
  | c :: rest, result, shift =>
    let b := c - 63 - 1
    let result' := result + b * 2 ^ shift
    if b < 0x1f then some (result', rest) else parseVarint rest result' (shift + 5)

/-- Python `~(result >> 1) if (result & 1) else (result >> 1)`; `>> 1` on
ints is floor division by 2 and `~x` is `-x - 1`. -/
def polyDelta (result : ℤ) : ℤ :=
  if result % 2 = 1 then -(Int.fdiv result 2) - 1 else Int.fdiv result 2

/-- The outer `while index < len(encoded)` loop of `decode_polyline`,
with fuel bounding the iteration count (each iteration consumes at least
two characters, so `encoded.length + 1` iterations always suffice);
`none` models an `IndexError` escaping the loop. -/
def decodeLoop : ℕ → List ℤ → ℤ → ℤ → Option (List TrackPoint)
  | 0, _, _, _ => none
  | _ + 1, [], _, _ => some []
  | fuel + 1, l, lat, lon => do
    let (rlat, l1) ← parseVarint l 1 0
    let lat' := lat + polyDelta rlat
    let (rlon, l2) ← parseVarint l1 1 0
    let lon' := lon + polyDelta rlon
    let rest ← decodeLoop fuel l2 lat' lon'
    some (TrackPoint.mk2 ((lat' : ℚ) / 1000000) ((lon' : ℚ) / 1000000) :: rest)

/-- `decode_polyline(encoded)` from `services/valhalla_adapter.py`:
decodes a Valhalla polyline into `{'lat': .., 'lon': ..}` dicts scaled by
`1e-6`. -/
def decode_polyline (encoded : List ℤ) : Option (List TrackPoint) :=
  decodeLoop (encoded.length + 1) encoded 0 0

/-- The `for i, point in enumerate(matched_points)` extraction loop:
keeps entries with both `lat` and `lon`, carrying over `time` and `speed`
from the original chunk point at the same index when it exists. -/
def extractMatched (chunk : List TrackPoint) (mps : List MatchedPoint) : List TrackPoint :=
  (List.range mps.length).filterMap fun i =>
    match (mps.getD i default).mlat, (mps.getD i default).mlon with
    | some la, some lo =>
      some { lat := la, lon := lo,
             time := if i < chunk.length then (chunk.getD i default).time else .absent,
             speed := if i < chunk.length then (chunk.getD i default).speed else .absent,
             elevation := .absent }
    | _, _ => none

/-- The `for edge_idx, edge in enumerate(edges)` loop: concatenates the
decoded per-edge shapes, skipping edges without a `shape` key; `none`
models a decode `IndexError` escaping to the outer `except`. -/
def collectEdges : List ValhallaEdge → Option (List TrackPoint)
  | [] => some []
  | e :: es =>
    match e.eshape with
    | none => collectEdges es
    | some enc => do
      let ps ← decode_polyline enc
      let rest ← collectEdges es
      some (ps ++ rest)

/-- The `edges` fallback block followed by the final
`return chunk` passthrough of `process_chunk_with_valhalla`. -/
def adapterEdges (chunk : List TrackPoint) (data : ValhallaJson) : Option (List TrackPoint) :=
  match data.edges with
  | some es =>
    match collectEdges es with
    | none => none
    | some all_points =>
      if all_points ≠ [] ∧ 10 < all_points.length then some all_points else some chunk
  | none => some chunk

/-- The `shape` fallback block of `process_chunk_with_valhalla`, falling
through to the `edges` block when the decoded shape is too short. -/
def adapterShape (chunk : List TrackPoint) (data : ValhallaJson) : Option (List TrackPoint) :=
  match data.shape with
  | some enc =>
    match decode_polyline enc with
    | none => none
    | some shapePts =>
      if 10 < shapePts.length then some shapePts else adapterEdges chunk data
  | none => adapterEdges chunk data

/-- `process_chunk_with_valhalla(chunk)` from `services/valhalla_adapter.py`,
with the HTTP call abstracted into the `response` argument (`none` models
a transport failure or timeout raised by `requests.post`, which the outer
`except` turns into `None`). The request payload is fixed configuration
data that does not influence the result extraction and is not modelled.
Result `none` is Python `None` (a failed match); `len(matched_coords) >
len(chunk) * 0.3` is modelled with the exact rational `3/10`. -/
def process_chunk_with_valhalla (chunk : List TrackPoint) (response : Option HttpResponse) :
    Option (List TrackPoint) :=
  match response with
  | none => none
  | some res =>
    if res.status ≠ 200 then
      if res.status = 502 ∨ res.status = 503 ∨ res.status = 504 then some chunk else none
    else
      match res.json with
      | none => some chunk
      | some data =>
        if data.has_error_message then some chunk
        else
          match data.matched_points with
          | some mps =>
            let matched_coords := extractMatched chunk mps
            if matched_coords ≠ [] ∧ (chunk.length : ℚ) * (3 / 10) < matched_coords.length
            then some matched_coords
            else adapterShape chunk data
          | none => adapterShape chunk data

/-! ### services/track_chunks_processor.py -/

/-- The `while start_idx < len(points)` loop of `chunk_track`, with fuel
bounding the iteration count. Whenever `overlap < max_chunk_size` (true at
every call site) each iteration advances `start_idx` by at least one, so
`points.length + 1` fuel is always sufficient; with `overlap ≥
max_chunk_size` the Python loop would not terminate. -/
def chunkLoop (points : List TrackPoint) (max_chunk_size overlap : ℕ) :
    ℕ → ℕ → List (List TrackPoint)
  | _, 0 => []
  | start_idx, fuel + 1 =>
    if start_idx < points.length then
      let end_idx := min (start_idx + max_chunk_size) points.length
      ((points.drop start_idx).take (end_idx - start_idx)) ::
        chunkLoop points max_chunk_size overlap
          (if end_idx < points.length then end_idx - overlap else points.length) fuel
    else []

/-- `chunk_track(points, max_chunk_size, overlap)` from
`services/track_chunks_processor.py`: fixed-size slicing with overlap,
or a single chunk when the track already fits. -/
def chunk_track (points : List TrackPoint) (max_chunk_size overlap : ℕ) :
    List (List TrackPoint) :=
  if points.length ≤ max_chunk_size then [points]
  else chunkLoop points max_chunk_size overlap 0 (points.length + 1)

/-- `connect_processed_chunks(chunks)` loop body from
`services/track_chunks_processor.py`, accumulating `connected`. Empty
chunks are skipped; `connected[-1]` on an empty accumulator raises
`IndexError`. All points are keyed dicts here, so only the
`isinstance(p, dict)` arms of the source are exercised. -/
noncomputable def connectLoop : List TrackPoint → List (List TrackPoint) →
    Except PyErr (List TrackPoint)
  | connected, [] => .ok connected
  | connected, c :: cs =>
    match c with
    | [] => connectLoop connected cs
    | p2 :: ctail =>
      match connected.getLast? with
      | none => .error .indexError
      | some p1 =>
        let dist := haversine p1.lat p1.lon p2.lat p2.lon
        if dist < 10 then connectLoop (connected ++ ctail) cs
        else if dist < 80 then
          connectLoop (connected ++
            TrackPoint.mk2 ((p1.lat + p2.lat) / 2) ((p1.lon + p2.lon) / 2) ::
              (p2 :: ctail)) cs
        else connectLoop (connected ++ (p2 :: ctail)) cs

/-- `connect_processed_chunks(chunks)` from
`services/track_chunks_processor.py`: empty input gives an empty track, a
single chunk is returned unchanged, otherwise chunks are stitched
end-to-end starting from the first. -/
noncomputable def connect_processed_chunks : List (List TrackPoint) →
    Except PyErr (List TrackPoint)
  | [] => .ok []
  | [c] => .ok c
  | c :: cs => connectLoop c cs

/-! ### the chunk-processing loop of `process_track`
(`services/track_processor.py` lines 116-143; `app.py` lines 467-488 is
the identical logic) -/

/-- Whether a map-match result counts as a success in `process_track`:
`if matched_coords and len(matched_coords) >= 5`. -/
def matchOk (r : Option (List TrackPoint)) : Option (List TrackPoint) :=
  match r with
  | some cs => if 5 ≤ cs.length then some cs else none
  | none => none

/-- The contribution of a single chunk to `processed_chunks`: a successful
match is appended; a failed chunk longer than 1000 points is re-chunked
with `chunk_track(chunk, min(1000, len(chunk) // 2), sub_chunk_size // 5)`
and each successful sub-chunk match appended; a failed chunk of at most
1000 points contributes nothing. The map-match calls are abstracted into
the `matchFn` argument (in the source every point list is sent over HTTP
to Valhalla; tuple results are converted to dicts, a no-op here since all
points are keyed records). -/
def chunkContribution (matchFn : List TrackPoint → Option (List TrackPoint))
    (chunk : List TrackPoint) : List (List TrackPoint) :=
  match matchOk (matchFn chunk) with
  | some cs => [cs]
  | none =>
    if 1000 < chunk.length then
      let sub_chunk_size := min 1000 (chunk.length / 2)
      let sub_overlap := sub_chunk_size / 5
      (chunk_track chunk sub_chunk_size sub_overlap).filterMap
        fun sub_chunk => matchOk (matchFn sub_chunk)
    else []

/-- The `for i, chunk in enumerate(chunks)` loop of `process_track`,
carrying the `processed_chunks` accumulator exactly as the source appends
to it: a successful match appends its result; on failure, only a chunk of
more than 1000 points is re-chunked and its successful sub-matches
appended one by one. -/
def processLoop (matchFn : List TrackPoint → Option (List TrackPoint)) :
    List (List TrackPoint) → List (List TrackPoint) → List (List TrackPoint)
  | processed_chunks, [] => processed_chunks
  | processed_chunks, chunk :: rest =>
    match matchOk (matchFn chunk) with
    | some matched_coords => processLoop matchFn (processed_chunks ++ [matched_coords]) rest
    | none =>
      if 1000 < chunk.length then
        let sub_chunk_size := min 1000 (chunk.length / 2)
        let sub_overlap := sub_chunk_size / 5
        processLoop matchFn
          (processed_chunks ++ (chunk_track chunk sub_chunk_size sub_overlap).filterMap
            fun sub_chunk => matchOk (matchFn sub_chunk)) rest
      else processLoop matchFn processed_chunks rest

/-- The chunk-processing step of `process_track`: the loop above started
from the empty `processed_chunks` list. -/
def processTrackChunks (matchFn : List TrackPoint → Option (List TrackPoint))
    (chunks : List (List TrackPoint)) : List (List TrackPoint) :=
  processLoop matchFn [] chunks

/-! ### app.py, `connect_processed_chunks` (the legacy windowed-match
stitcher; its points are `(lat, lon)` tuples) -/

/-- Python list slicing `l[:stop]` for a possibly negative `stop`. -/
def pySliceTo {α : Type} (l : List α) (stop : ℤ) : List α :=
  if 0 ≤ stop then l.take stop.toNat else l.take ((l.length : ℤ) + stop).toNat

/-- Keep the candidate `(dist, j, k)` when it strictly improves on the
best so far (the source starts from `min_dist = float('inf')`, which the
first candidate always beats, modelled by the `none` start). -/
noncomputable def betterPair (best : Option (ℝ × ℕ × ℕ)) (cand : ℝ × ℕ × ℕ) :
    Option (ℝ × ℕ × ℕ) :=
  match best with
  | none => some cand
  | some b => if cand.1 < b.1 then some cand else some b

/-- The nested `for j ... for k ...` minimum-distance search of the
windowed stitcher. -/
noncomputable def bestMatch (last_points first_points : List (ℚ × ℚ)) :
    Option (ℝ × ℕ × ℕ) :=
  last_points.enum.foldl
    (fun acc jp =>
      first_points.enum.foldl
        (fun acc2 kp =>
          betterPair acc2 (haversine jp.2.1 jp.2.2 kp.2.1 kp.2.2, jp.1, kp.1))
        acc)
    none

/-- The body of the `for i in range(1, len(chunks))` loop of the
`app.py` stitcher: the new accumulated track after processing one chunk.
Empty chunks are skipped. When both the accumulated track and the next
chunk exceed 10 points, the closest pair between the last 30 and first 30
points decides the splice: below 30 m the track is cut at
`best_prev_idx` (computed as `len(connected) - 30 + j`, an `ℤ` since it
can be negative, applied with Python slice semantics) and the chunk
appended from `best_new_idx` on; otherwise, below 300 m a linear bridge
of `min(10, max(3, int(min_dist / 30)))` steps is inserted, and the chunk
is appended skipping `min(2, len(chunk) // 30)` points. Short chunks take
the skip-append path directly. -/
noncomputable def appConnectStep (connected c : List (ℚ × ℚ)) : List (ℚ × ℚ) :=
  if c = [] then connected
  else if 10 < connected.length ∧ 10 < c.length then
    match bestMatch (connected.drop (connected.length - 30)) (c.take 30) with
    | none => connected
    | some (min_dist, j, k) =>
      let best_prev_idx : ℤ := (connected.length : ℤ) - 30 + j
      if min_dist < 30 then
        pySliceTo connected (best_prev_idx + 1) ++ c.drop k
      else
        let bridge : List (ℚ × ℚ) :=
          if min_dist < 300 then
            match connected.getLast?, c.head? with
            | some p1, some p2 =>
              let steps : ℤ := min 10 (max 3 ⌊min_dist / 30⌋)
              (List.range (steps.toNat - 1)).map fun s0 =>
                let frac : ℚ := ((s0 : ℚ) + 1) / (steps : ℚ)
                (p1.1 + frac * (p2.1 - p1.1), p1.2 + frac * (p2.2 - p1.2))
            | _, _ => []
          else []
        connected ++ bridge ++ c.drop (min 2 (c.length / 30))
  else
    connected ++ c.drop (min 2 (c.length / 30))

/-- The `for i in range(1, len(chunks))` loop of the `app.py` stitcher,
folding the step over the remaining chunks. -/
noncomputable def appConnectLoop (connected : List (ℚ × ℚ)) :
    List (List (ℚ × ℚ)) → List (ℚ × ℚ)
  | [] => connected
  | c :: cs => appConnectLoop (appConnectStep connected c) cs

/-- `connect_processed_chunks(chunks)` from `app.py` (lines 375-433). -/
noncomputable def connect_processed_chunks_app : List (List (ℚ × ℚ)) → List (ℚ × ℚ)
  | [] => []
  | [c] => c
  | c :: cs => appConnectLoop c cs

/-! ### services/timestamp_speed_adjuster.py -/

/-- A track point after `refine_points` has run its main path: the same
dict with `cumdist` added, `time` overwritten by the (real-valued)
interpolated timestamp array, `elevation` normalised via `.get`, and
`speed` possibly filled. -/
structure RefinedPoint where
  lat : ℚ
  lon : ℚ
  cumdist : ℝ
  rtime : Option ℝ
  speed : Field ℚ
  elevation : Option ℚ

instance : Inhabited RefinedPoint := ⟨⟨0, 0, 0, none, .absent, none⟩⟩

/-- `refine_points` returns either its argument unchanged (the `n < 2`
shortcut) or the refined list. -/
inductive RefineResult where
  | early : List TrackPoint → RefineResult
  | refined : List RefinedPoint → RefineResult

/-- The `for ki in known_idxs` accumulation loop of
`interpolate_speed_idw`: skips unknown speeds, returns a known speed
directly when at (effectively) zero distance, otherwise accumulates
`w = 1 / dist_diff ** power`. -/
noncomputable def idwLoop (points : List RefinedPoint) (target_dist : ℝ) (power : ℕ) :
    List ℕ → ℝ → ℝ → Except PyErr (Option ℝ)
  | [], numerator, denominator =>
    .ok (if 0 < denominator then some (numerator / denominator) else none)
  | ki :: rest, numerator, denominator =>
    if points.length ≤ ki then .error .indexError
    else
      match (points.getD ki default).speed.get? with
      | none => idwLoop points target_dist power rest numerator denominator
      | some spd =>
        let dist_diff := |(points.getD ki default).cumdist - target_dist|
        if dist_diff < 1 / 1000000000 then .ok (some (spd : ℝ))
        else idwLoop points target_dist power rest
          (numerator + 1 / dist_diff ^ power * (spd : ℝ)) (denominator + 1 / dist_diff ^ power)

/-- `interpolate_speed_idw(points, target_idx, known_idxs, power)` from
`services/timestamp_speed_adjuster.py`: `None` when no known speeds
exist (`Except` models `IndexError` on an out-of-range index). -/
noncomputable def interpolate_speed_idw (points : List RefinedPoint) (target_idx : ℕ)
    (known_idxs : List ℕ) (power : ℕ) : Except PyErr (Option ℝ) :=
  if known_idxs = [] then .ok none
  else if points.length ≤ target_idx then .error .indexError
  else idwLoop points (points.getD target_idx default).cumdist power known_idxs 0 0

/-- Cumulative haversine distances (`cumdist`) along a track, starting
from 0. -/
noncomputable def cumdistFrom (prev : TrackPoint) (acc : ℝ) : List TrackPoint → List ℝ
  | [] => []
  | p :: ps =>
    let acc' := acc + haversine_distance prev.lat prev.lon p.lat p.lon
    acc' :: cumdistFrom p acc' ps

/-- Step 1 of `refine_points`: the `cumdist` array. -/
noncomputable def cumdistList : List TrackPoint → List ℝ
  | [] => []
  | p :: ps => 0 :: cumdistFrom p 0 ps

/-- The `for kt in known_time_idxs: idx_time[kt] = points[kt]['time']`
copy loop: raises `IndexError` out of range and `KeyError` on an absent
`time` key; a stored `None` stays unknown. -/
noncomputable def copyKnownTimes (points : List TrackPoint) :
    List ℕ → List (Option ℝ) → Except PyErr (List (Option ℝ))
  | [], idx_time => .ok idx_time
  | kt :: rest, idx_time =>
    if points.length ≤ kt then .error .indexError
    else
      match (points.getD kt default).time with
      | .absent => .error .keyError
      | .null => copyKnownTimes points rest (idx_time.set kt none)
      | .val t => copyKnownTimes points rest (idx_time.set kt (some (t : ℝ)))

/-- Python `range(start, stop, step)` for a positive step. -/
def pyRange (start stop step : ℤ) : List ℤ :=
  if 0 < step then
    (List.range ((stop - start + step - 1) / step).toNat).map fun k => start + k * step
  else []

/-- The duplicate-distance nudge: `if anchor_d[j] <= anchor_d[j-1]:
anchor_d[j] = anchor_d[j-1] + 1e-6`, against the already-updated
predecessor. -/
noncomputable def nudgeLoop (prev : ℝ) : List ℝ → List ℝ
  | [] => []
  | d :: ds =>
    let d' := if d ≤ prev then prev + 1 / 1000000 else d
    d' :: nudgeLoop d' ds

/-- The nudge pass over a full anchor-distance list. -/
noncomputable def nudgeDists : List ℝ → List ℝ
  | [] => []
  | d :: ds => d :: nudgeLoop d ds

/-- The strict-monotonicity cleaning pass: keep an anchor only when its
distance exceeds the last kept distance by more than `1e-6`. -/
noncomputable def cleanAnchors : Option ℝ → List (ℝ × ℝ) → List (ℝ × ℝ)
  | _, [] => []
  | prev?, dt :: rest =>
    match prev? with
    | none => dt :: cleanAnchors (some dt.1) rest
    | some prev =>
      if prev + 1 / 1000000 < dt.1 then dt :: cleanAnchors (some dt.1) rest
      else cleanAnchors (some prev) rest

/-- The `for pidx in range(left_idx, right_idx + 1)` fill: points with an
unknown time get `anchor start time + spline(cumdist)`. -/
noncomputable def fillRange (spline : ℝ → ℝ) (cumdist : List ℝ) (base : ℝ)
    (left right : ℕ) (idx_time : List (Option ℝ)) : List (Option ℝ) :=
  (List.range (right + 1 - left)).foldl
    (fun it k =>
      let pidx := left + k
      match it.getD pidx none with
      | some _ => it
      | none => it.set pidx (some (base + spline (cumdist.getD pidx 0))))
    idx_time

/-- The chunked monotone-spline interpolation loop (step 3 of
`refine_points`). `pchip` abstracts `scipy.interpolate.PchipInterpolator`
(external library code, not part of this repository): given the cleaned
anchor distances and relative times it yields the interpolant. Anchors
with a missing `time` key raise `KeyError`; a stored `None` reaches
`float(None)` and raises `TypeError`. -/
noncomputable def splineChunks (pchip : List ℝ → List ℝ → ℝ → ℝ)
    (points : List TrackPoint) (cumdist : List ℝ) (sorted_kts : List ℕ) (chunk_size : ℕ) :
    List ℤ → List (Option ℝ) → Except PyErr (List (Option ℝ))
  | [], idx_time => .ok idx_time
  | start :: starts, idx_time =>
    let anchor_idxs := (sorted_kts.drop start.toNat).take chunk_size
    if anchor_idxs.length < 2 then
      splineChunks pchip points cumdist sorted_kts chunk_size starts idx_time
    else do
      let anchor_t ← mapExcept
        (fun ai =>
          match (points.getD ai default).time with
          | .val t => .ok t
          | .null => .error .typeError
          | .absent => .error .keyError)
        anchor_idxs
      let anchor_d := anchor_idxs.map fun ai => cumdist.getD ai 0
      let base : ℝ := ((anchor_t.headD 0 : ℚ) : ℝ)
      let numeric_times := anchor_t.map fun t => ((t : ℚ) : ℝ) - base
      let clean := cleanAnchors none ((nudgeDists anchor_d).zip numeric_times)
      if clean.length < 2 then
        splineChunks pchip points cumdist sorted_kts chunk_size starts idx_time
      else
        let spline := pchip (clean.map Prod.fst) (clean.map Prod.snd)
        let left := anchor_idxs.headD 0
        let right := anchor_idxs.getLastD 0
        splineChunks pchip points cumdist sorted_kts chunk_size starts
          (fillRange spline cumdist base left right idx_time)

/-- The `while j < n and idx_time[j] is None: j += 1` scan, with fuel
(the scan advances by one each step, so `n` fuel suffices). -/
noncomputable def scanNext (idx_time : List (Option ℝ)) (n : ℕ) : ℕ → ℕ → ℕ
  | 0, j => j
  | fuel + 1, j =>
    if j < n ∧ idx_time.getD j none = none then scanNext idx_time n fuel (j + 1) else j

/-- The linear-interpolation fallback loop (step 4 of `refine_points`):
walks indices keeping the last index seen with a known time, and fills an
unknown entry by linear interpolation in cumulative distance between that
anchor and the next known entry, when both exist. -/
noncomputable def linearFillLoop (cumdist : List ℝ) (n : ℕ) :
    List ℕ → Option ℕ → List (Option ℝ) → List (Option ℝ)
  | [], _, idx_time => idx_time
  | i :: is_, last_known_i, idx_time =>
    match idx_time.getD i none with
    | some _ => linearFillLoop cumdist n is_ (some i) idx_time
    | none =>
      let j := scanNext idx_time n n (i + 1)
      match last_known_i with
      | some lk =>
        if j < n then
          let d0 := cumdist.getD lk 0
          let d1 := cumdist.getD j 0
          let t0 := (idx_time.getD lk none).getD 0
          let t1 := (idx_time.getD j none).getD 0
          let newt := if d1 = d0 then t0
            else t0 + (cumdist.getD i 0 - d0) / (d1 - d0) * (t1 - t0)
          linearFillLoop cumdist n is_ last_known_i (idx_time.set i (some newt))
        else linearFillLoop cumdist n is_ last_known_i idx_time
      | none => linearFillLoop cumdist n is_ last_known_i idx_time

/-- The speed-fill loop (step 5 of `refine_points`), mutating the list in
place as the source does: a point whose `.get('speed')` is `None` receives
`round(interpolate_speed_idw(...), 1)`; when the estimate is `None`,
`round(None, 1)` raises `TypeError`. Python's banker's rounding on floats
is idealised as round-half-up to one decimal. -/
noncomputable def speedFill (known_speed_idxs : List ℕ) :
    List ℕ → List RefinedPoint → Except PyErr (List RefinedPoint)
  | [], points => .ok points
  | i :: is_, points =>
    match (points.getD i default).speed.get? with
    | some _ => speedFill known_speed_idxs is_ points
    | none => do
      let spd_est ← interpolate_speed_idw points i known_speed_idxs 2
      match spd_est with
      | none => .error .typeError
      | some s =>
        speedFill known_speed_idxs is_
          (points.set i { points.getD i default with speed := .val ((round (s * 10) : ℤ) / 10) })

/-- `refine_points(points, known_time_idxs, known_speed_idxs, chunk_size)`
from `services/timestamp_speed_adjuster.py`. Tracks shorter than 2 points
are returned unchanged; otherwise cumulative distances are computed,
timestamps interpolated per anchor chunk (then linearly as a fallback),
`time`/`elevation` reassigned, and missing speeds filled by IDW. -/
noncomputable def refine_points (pchip : List ℝ → List ℝ → ℝ → ℝ)
    (points : List TrackPoint) (known_time_idxs : List ℕ)
    (known_speed_idxs : Option (List ℕ)) (chunk_size : ℕ) :
    Except PyErr RefineResult :=
  let n := points.length
  if n < 2 then .ok (.early points)
  else do
    let cumdist := cumdistList points
    let sorted_kts := known_time_idxs.mergeSort (· ≤ ·)
    let idx1 ← copyKnownTimes points sorted_kts (List.replicate n none)
    let starts := pyRange 0 ((sorted_kts.length : ℤ) - 1) ((chunk_size : ℤ) - 1)
    let idx2 ← splineChunks pchip points cumdist sorted_kts chunk_size starts idx1
    let idx3 := linearFillLoop cumdist n (List.range n) none idx2
    let assigned := (List.range n).map fun i =>
      let p := points.getD i default
      ({ lat := p.lat, lon := p.lon, cumdist := cumdist.getD i 0,
         rtime := idx3.getD i none, speed := p.speed,
         elevation := p.elevation.get? } : RefinedPoint)
    let ks := ((known_speed_idxs.getD []).mergeSort (· ≤ ·))
    let final ← speedFill ks (List.range n) assigned
    .ok (.refined final)

/-! ### services/points_smoother.py, `ekf_smooth_track` -/

/-- An output point of the EKF:
`{'lat', 'lon', 'time', 'vx', 'vy'}`. -/
structure EkfPoint where
  elat : ℝ
  elon : ℝ
  etime : Option ℚ
  vx : ℝ
  vy : ℝ

/-- The filter state: the vector `[x, y, vx, vy]` and covariance `P`. -/
structure KalmanState where
  state : Fin 4 → ℝ
  P : Matrix (Fin 4) (Fin 4) ℝ

/-- The constant-velocity state-transition matrix `F` built from `dt`. -/
noncomputable def Fmat (dt : ℝ) : Matrix (Fin 4) (Fin 4) ℝ :=
  Matrix.of ![![1, 0, dt, 0], ![0, 1, 0, dt], ![0, 0, 1, 0], ![0, 0, 0, 1]]

/-- The process-noise covariance `Q` (`sigma_a = 0.5`). -/
noncomputable def Qmat (dt : ℝ) : Matrix (Fin 4) (Fin 4) ℝ :=
  ((1 / 2 : ℝ) ^ 2) •
    Matrix.of ![![dt ^ 4 / 4, 0, dt ^ 3 / 2, 0], ![0, dt ^ 4 / 4, 0, dt ^ 3 / 2],
      ![dt ^ 3 / 2, 0, dt ^ 2, 0], ![0, dt ^ 3 / 2, 0, dt ^ 2]]

/-- The measurement matrix `H` picking the planar position. -/
noncomputable def Hmat : Matrix (Fin 2) (Fin 4) ℝ :=
  Matrix.of ![![1, 0, 0, 0], ![0, 1, 0, 0]]

/-- The measurement-noise covariance `R` (`sigma_z = 5.0`). -/
noncomputable def Rmat : Matrix (Fin 2) (Fin 2) ℝ :=
  Matrix.of ![![(5 : ℝ) ^ 2, 0], ![0, (5 : ℝ) ^ 2]]

/-- The elapsed-time computation of `ekf_smooth_track` for one
consecutive pair: `dt = 1.0` when either timestamp is missing
(`.get('time')` is `None`; a `datetime` is always truthy), and a
non-positive difference is clamped to `1.0`. -/
def ekfDt (prev cur : TrackPoint) : ℚ :=
  match cur.time.get?, prev.time.get? with
  | some t_current, some t_prev =>
    if t_current - t_prev ≤ 0 then 1 else t_current - t_prev
  | _, _ => 1

open Classical in
/-- One iteration of the EKF measurement loop: predict with `F`/`Q`, then
update with gain `K = P Hᵀ S⁻¹`; `np.linalg.inv(S)` raising `LinAlgError`
on an (exactly) singular innovation covariance is modelled by the
determinant test. -/
noncomputable def ekfStep (ref_lat ref_lon lat_scale lon_scale : ℝ)
    (prev cur : TrackPoint) (s : KalmanState) : Except PyErr (KalmanState × EkfPoint) :=
  let dt : ℝ := ((ekfDt prev cur : ℚ) : ℝ)
  let F := Fmat dt
  let statePred := F.mulVec s.state
  let Ppred := F * s.P * F.transpose + Qmat dt
  let z : Fin 2 → ℝ :=
    ![((cur.lon : ℝ) - ref_lon) * lon_scale, ((cur.lat : ℝ) - ref_lat) * lat_scale]
  let h : Fin 2 → ℝ := ![statePred 0, statePred 1]
  let S := Hmat * Ppred * Hmat.transpose + Rmat
  if S.det = 0 then .error .linAlgError
  else
    let K := Ppred * Hmat.transpose * S⁻¹
    let y_res := z - h
    let stateNew := statePred + K.mulVec y_res
    let Pnew := (1 - K * Hmat) * Ppred
    .ok (⟨stateNew, Pnew⟩,
      { elat := ref_lat + stateNew 1 / lat_scale,
        elon := ref_lon + stateNew 0 / lon_scale,
        etime := cur.time.get?,
        vx := stateNew 2, vy := stateNew 3 })

/-- The `for i in range(1, len(track_points))` loop of
`ekf_smooth_track`. -/
noncomputable def ekfLoop (ref_lat ref_lon lat_scale lon_scale : ℝ) :
    KalmanState → TrackPoint → List TrackPoint → Except PyErr (List EkfPoint)
  | _, _, [] => .ok []
  | s, prev, cur :: rest =>
    match ekfStep ref_lat ref_lon lat_scale lon_scale prev cur s with
    | .error e => .error e
    | .ok (s', p) =>
      match ekfLoop ref_lat ref_lon lat_scale lon_scale s' cur rest with
      | .error e => .error e
      | .ok ps => .ok (p :: ps)

/-- `ekf_smooth_track(track_points)` from `services/points_smoother.py`:
local planar projection about the first point (111320 m per degree of
latitude, scaled by `cos` of the reference latitude for longitude),
initial state `0` with covariance `10 * eye(4)`, then one filter step per
subsequent point. -/
noncomputable def ekf_smooth_track (track_points : List TrackPoint) :
    Except PyErr (List EkfPoint) :=
  match track_points with
  | [] => .ok []
  | p0 :: rest =>
    let ref_lat : ℝ := (p0.lat : ℝ)
    let ref_lon : ℝ := (p0.lon : ℝ)
    let lat_scale : ℝ := 111320
    let lon_scale : ℝ := 111320 * Real.cos (radians ref_lat)
    match ekfLoop ref_lat ref_lon lat_scale lon_scale
        ⟨![0, 0, 0, 0], (10 : ℝ) • 1⟩ p0 rest with
    | .error e => .error e
    | .ok ps =>
      .ok ({ elat := ref_lat, elon := ref_lon, etime := p0.time.get?,
             vx := 0, vy := 0 } :: ps)

/-! ### Concrete inputs used by counterexamples and witnesses -/

/-- A point at the origin with a present (`None`-valued) `time` key. -/
def pNull : TrackPoint := ⟨0, 0, .null, .absent, .absent⟩

/-- A point at the origin with `time` present (`None`) and a known speed. -/
def pSpeed : TrackPoint := ⟨0, 0, .null, .val 5, .absent⟩

/-- A point at the origin with no `time` key at all. -/
def pNoTime : TrackPoint := ⟨0, 0, .absent, .absent, .absent⟩

/-- A three-point track whose middle point lacks the `time` key. -/
def trackMissingTime : List TrackPoint := [pNull, pNoTime, pNull]

/-- A three-point track whose middle point carries a known speed. -/
def trackMidSpeed : List TrackPoint := [pNull, pSpeed, pNull]

/-- A six-point track (a failed chunk far below the 1000-point retry
threshold). -/
def chunkSix : List TrackPoint :=
  [⟨0, 0, .null, .absent, .absent⟩, ⟨0, 1, .null, .absent, .absent⟩,
   ⟨0, 2, .null, .absent, .absent⟩, ⟨0, 3, .null, .absent, .absent⟩,
   ⟨0, 4, .null, .absent, .absent⟩, ⟨0, 5, .null, .absent, .absent⟩]

/-- A five-point matched result (long enough to count as a success). -/
def matchedFive : List TrackPoint :=
  [TrackPoint.mk2 0 0, TrackPoint.mk2 0 1, TrackPoint.mk2 0 2,
   TrackPoint.mk2 0 3, TrackPoint.mk2 0 4]

/-- A map-match oracle that fails on `chunkSix` itself but succeeds on
every other chunk (in particular on both of its halves). -/
def oracleSix (l : List TrackPoint) : Option (List TrackPoint) :=
  if l = chunkSix then none else some matchedFive

/-- A five-point track whose first and last points carry latitudes 4 and
8 (all times present as `None`). -/
def trackEven : List TrackPoint :=
  [⟨4, 0, .null, .absent, .absent⟩, pNull, pNull, pNull, ⟨8, 0, .null, .absent, .absent⟩]

/-! ### Generic helper lemmas -/

theorem getD_mem {α : Type} [Inhabited α] {l : List α} {i : ℕ} (h : i < l.length) :
    l.getD i default ∈ l := by
  rw [List.getD_eq_getElem l default h]
  exact List.getElem_mem h

theorem mapExcept_ok_length {α β : Type} {f : α → Except PyErr β} :
    ∀ {l : List α} {out : List β}, mapExcept f l = .ok out → out.length = l.length := by
  intro l
  induction l with
  | nil => intro out h; simp [mapExcept] at h; simp [← h]
  | cons a as ih =>
    intro out h
    cases hfa : f a with
    | error e => simp [mapExcept, hfa, Bind.bind, Except.bind] at h
    | ok b =>
      cases hrest : mapExcept f as with
      | error e => simp [mapExcept, hfa, hrest, Bind.bind, Except.bind] at h
      | ok bs =>
        simp [mapExcept, hfa, hrest, Bind.bind, Except.bind] at h
        subst h
        simp [ih hrest]

theorem mapExcept_ok_getD {α β : Type} [Inhabited α] [Inhabited β] {f : α → Except PyErr β} :
    ∀ {l : List α} {out : List β}, mapExcept f l = .ok out →
      ∀ k, k < l.length → f (l.getD k default) = .ok (out.getD k default) := by
  intro l
  induction l with
  | nil => intro out _ k hk; simp at hk
  | cons a as ih =>
    intro out h k hk
    cases hfa : f a with
    | error e => simp [mapExcept, hfa, Bind.bind, Except.bind] at h
    | ok b =>
      cases hrest : mapExcept f as with
      | error e => simp [mapExcept, hfa, hrest, Bind.bind, Except.bind] at h
      | ok bs =>
        simp [mapExcept, hfa, hrest, Bind.bind, Except.bind] at h
        subst h
        cases k with
        | zero => simpa using hfa
        | succ k' => exact ih hrest k' (by simpa using hk)

theorem mapExcept_ok_of_forall {α β : Type} {f : α → Except PyErr β} :
    ∀ {l : List α}, (∀ a ∈ l, ∃ b, f a = .ok b) → ∃ out, mapExcept f l = .ok out := by
  intro l
  induction l with
  | nil => intro _; exact ⟨[], rfl⟩
  | cons a as ih =>
    intro h
    obtain ⟨b, hb⟩ := h a (by simp)
    obtain ⟨bs, hbs⟩ := ih fun x hx => h x (by simp [hx])
    exact ⟨b :: bs, by simp [mapExcept, hb, hbs, Bind.bind, Except.bind]⟩

theorem take_drop_window {α : Type} [Inhabited α] {l : List α} {s w : ℕ}
    (h : s + w ≤ l.length) :
    (l.drop s).take w = (List.range w).map fun k => l.getD (s + k) default := by
  apply List.ext_getElem
  · simp; omega
  · intro k h1 h2
    have hk : k < w := by simpa using h2
    have hsk : s + k < l.length := by omega
    simp [List.getElem?_eq_getElem hsk]

/-! ### Lemmas about `smooth_track` -/

theorem smooth_track_noop {points : List TrackPoint} {window : ℕ}
    (h : window < 3 ∨ points.length < window) : smooth_track points window = .ok points := by
  simp only [smooth_track, if_pos h]

theorem smooth_track_ok_spec {points : List TrackPoint} {window : ℕ} {out : List TrackPoint}
    (hw : 3 ≤ window) (hl : window ≤ points.length)
    (hok : smooth_track points window = .ok out) :
    out.length = points.length ∧
      ∀ i, i < points.length →
        smoothAt points window (window / 2) points.length i = .ok (out.getD i default) := by
  have hcond : ¬(window < 3 ∨ points.length < window) := by omega
  rw [smooth_track, if_neg hcond] at hok
  refine ⟨by simpa using mapExcept_ok_length hok, ?_⟩
  intro i hi
  have h2 := mapExcept_ok_getD hok i (by simpa using hi)
  rwa [List.getD_eq_getElem _ _ (by simpa using hi), List.getElem_range] at h2

theorem smooth_track_total_of_times {points : List TrackPoint} {window : ℕ}
    (ht : ∀ p ∈ points, p.time ≠ .absent) :
    ∃ out, smooth_track points window = .ok out := by
  rw [smooth_track]
  by_cases hcond : window < 3 ∨ points.length < window
  · exact ⟨points, by rw [if_pos hcond]⟩
  · rw [if_neg hcond]
    apply mapExcept_ok_of_forall
    intro i hi
    have hi' : i < points.length := by simpa using List.mem_range.mp hi
    rw [smoothAt]
    by_cases hedge : i < window / 2 ∨ points.length - window / 2 - 1 < i
    · exact ⟨_, by rw [if_pos hedge]⟩
    · rw [if_neg hedge]
      cases htime : (points.getD i default).time with
      | absent => exact absurd htime (ht _ (getD_mem hi'))
      | null => exact ⟨_, rfl⟩
      | val t => exact ⟨_, rfl⟩

/-- Equivalence between the Python edge condition
`i < half or i > n - half - 1` and the spec's phrasing. -/
theorem smooth_edge_iff {window n i : ℕ} (_hw : 3 ≤ window) (_hl : window ≤ n) (hi : i < n) :
    (i < window / 2 ∨ n - window / 2 - 1 < i) ↔ (i < window / 2 ∨ n ≤ i + window / 2) := by
  omega

/-- C8 (amended): moving-average smoothing is the identity when `W < 3`
or the track is shorter than `W`; otherwise (on a track whose points all
carry a `time` key, the precondition under which the filter returns at
all, cf. C10) it preserves the length, leaves the first and last `⌊W/2⌋`
points unchanged, and sets each interior point's latitude and longitude
to the sum over the centered window of `2⌊W/2⌋ + 1` points divided by
`W` — which equals the arithmetic mean over the centered window of `W`
points exactly when `W` is odd; for even `W` the loop sums `W + 1`
points but still divides by `W` (see the counterexample). -/
theorem smooth_track_shape (points : List TrackPoint) (window : ℕ) :
    (window < 3 ∨ points.length < window → smooth_track points window = .ok points) ∧
    (3 ≤ window → window ≤ points.length → (∀ p ∈ points, p.time ≠ .absent) →
      ∃ out, smooth_track points window = .ok out ∧
        out.length = points.length ∧
        (∀ i, i < points.length → (i < window / 2 ∨ points.length ≤ i + window / 2) →
          out.getD i default = points.getD i default) ∧
        (∀ i, window / 2 ≤ i → i + window / 2 < points.length →
          ((out.getD i default).lat =
            (((points.drop (i - window / 2)).take (2 * (window / 2) + 1)).map
              TrackPoint.lat).sum / window ∧
           (out.getD i default).lon =
            (((points.drop (i - window / 2)).take (2 * (window / 2) + 1)).map
              TrackPoint.lon).sum / window) ∧
          (window % 2 = 1 →
            (out.getD i default).lat =
              (((points.drop (i - window / 2)).take window).map TrackPoint.lat).sum / window ∧
            (out.getD i default).lon =
              (((points.drop (i - window / 2)).take window).map TrackPoint.lon).sum / window))) := by
  refine ⟨smooth_track_noop, ?_⟩
  intro hw hl ht
  obtain ⟨out, hok⟩ := @smooth_track_total_of_times points window ht
  obtain ⟨hlen, hspec⟩ := smooth_track_ok_spec hw hl hok
  refine ⟨out, hok, hlen, ?_, ?_⟩
  · intro i hi hedge
    have h2 := hspec i hi
    rw [smoothAt, if_pos ((smooth_edge_iff hw hl hi).mpr hedge)] at h2
    exact (Except.ok.injEq _ _ ▸ h2).symm
  · intro i hlo hhi
    have hi : i < points.length := by omega
    have h2 := hspec i hi
    have hnedge : ¬(i < window / 2 ∨ points.length - window / 2 - 1 < i) := by
      rw [smooth_edge_iff hw hl hi]; omega
    rw [smoothAt, if_neg hnedge] at h2
    have hbound : (i - window / 2) + (2 * (window / 2) + 1) ≤ points.length := by omega
    have hlat : windowLatSum points i (window / 2) =
        (((points.drop (i - window / 2)).take (2 * (window / 2) + 1)).map
          TrackPoint.lat).sum := by
      rw [take_drop_window hbound, List.map_map]
      rfl
    have hlon : windowLonSum points i (window / 2) =
        (((points.drop (i - window / 2)).take (2 * (window / 2) + 1)).map
          TrackPoint.lon).sum := by
      rw [take_drop_window hbound, List.map_map]
      rfl
    have hmain : (out.getD i default).lat =
        (((points.drop (i - window / 2)).take (2 * (window / 2) + 1)).map
          TrackPoint.lat).sum / window ∧
        (out.getD i default).lon =
        (((points.drop (i - window / 2)).take (2 * (window / 2) + 1)).map
          TrackPoint.lon).sum / window := by
      cases htime : (points.getD i default).time with
      | absent => exact absurd htime (ht _ (getD_mem hi))
      | null =>
        rw [htime] at h2
        have h3 := (Except.ok.injEq _ _ ▸ h2)
        rw [← h3, ← hlat, ← hlon]
        exact ⟨rfl, rfl⟩
      | val t =>
        rw [htime] at h2
        have h3 := (Except.ok.injEq _ _ ▸ h2)
        rw [← h3, ← hlat, ← hlon]
        exact ⟨rfl, rfl⟩
    refine ⟨hmain, ?_⟩
    intro hodd
    have htake : (points.drop (i - window / 2)).take window =
        (points.drop (i - window / 2)).take (2 * (window / 2) + 1) := by
      rw [show 2 * (window / 2) + 1 = window from by omega]
    rw [htake]
    exact hmain

/-- C8 witness: the amended theorem applied to a concrete three-point
track with the odd window 3 (interior hypotheses) and to window 1 (no-op
hypothesis). -/
theorem smooth_track_shape_witness :
    (∃ out, smooth_track [pNull, pNull, pNull] 3 = .ok out ∧
      out.length = ([pNull, pNull, pNull] : List TrackPoint).length ∧
      (∀ i, i < ([pNull, pNull, pNull] : List TrackPoint).length →
        (i < 3 / 2 ∨ ([pNull, pNull, pNull] : List TrackPoint).length ≤ i + 3 / 2) →
        out.getD i default = ([pNull, pNull, pNull] : List TrackPoint).getD i default) ∧
      (∀ i, 3 / 2 ≤ i → i + 3 / 2 < ([pNull, pNull, pNull] : List TrackPoint).length →
        ((out.getD i default).lat =
          ((((([pNull, pNull, pNull] : List TrackPoint).drop (i - 3 / 2)).take
            (2 * (3 / 2) + 1)).map TrackPoint.lat).sum) / 3 ∧
         (out.getD i default).lon =
          ((((([pNull, pNull, pNull] : List TrackPoint).drop (i - 3 / 2)).take
            (2 * (3 / 2) + 1)).map TrackPoint.lon).sum) / 3) ∧
        ((3 : ℕ) % 2 = 1 →
          (out.getD i default).lat =
            ((((([pNull, pNull, pNull] : List TrackPoint).drop (i - 3 / 2)).take 3).map
              TrackPoint.lat).sum) / 3 ∧
          (out.getD i default).lon =
            ((((([pNull, pNull, pNull] : List TrackPoint).drop (i - 3 / 2)).take 3).map
              TrackPoint.lon).sum) / 3))) ∧
    smooth_track [pNull] 1 = .ok [pNull] :=
  ⟨(smooth_track_shape [pNull, pNull, pNull] 3).2 (by decide) (by decide) (by decide),
   (smooth_track_shape [pNull] 1).1 (Or.inl (by decide))⟩

/-- C8 counterexample: the claim as stated is false at the even window
`W = 4` — smoothing the five-point `trackEven` gives the interior point
latitude `(4+0+0+0+8)/4 = 3` (five summands divided by four), whereas the
arithmetic mean over either centered window of 4 points is 1 or 2. -/
theorem smooth_track_even_window_not_mean_cx :
    smooth_track trackEven 4 =
      .ok [⟨4, 0, .null, .absent, .absent⟩, pNull, ⟨3, 0, .null, .absent, .absent⟩,
        pNull, ⟨8, 0, .null, .absent, .absent⟩] ∧
    ((trackEven.take 4).map TrackPoint.lat).sum / 4 = 1 ∧
    (((trackEven.drop 1).take 4).map TrackPoint.lat).sum / 4 = 2 ∧
    (3 : ℚ) ≠ 1 ∧ (3 : ℚ) ≠ 2 := by
  refine ⟨?_, by norm_num [trackEven, pNull], by norm_num [trackEven, pNull],
    by norm_num, by norm_num⟩
  norm_num [smooth_track, mapExcept, smoothAt, windowLatSum, windowLonSum, trackEven, pNull,
    List.range_succ, Bind.bind, Except.bind, List.getD, TrackPoint.mk.injEq]

/-- C6 (amended): on a successful smoothing pass with an odd window
`W ≥ 3`, each interior output point keeps the `time` entry of the
original center point, but its `speed` key is dropped (the interior
points are rebuilt as `{'lat', 'lon', 'time'}` dicts), so speed is not
carried over. -/
theorem smooth_track_interior_time_kept_speed_dropped
    (points : List TrackPoint) (window : ℕ) (out : List TrackPoint)
    (hw : 3 ≤ window) (hodd : window % 2 = 1) (hl : window ≤ points.length)
    (hok : smooth_track points window = .ok out) :
    ∀ i, window / 2 ≤ i → i + window / 2 < points.length →
      (out.getD i default).time = (points.getD i default).time ∧
      (out.getD i default).speed = .absent := by
  obtain ⟨hlen, hspec⟩ := smooth_track_ok_spec hw hl hok
  intro i hlo hhi
  have hi : i < points.length := by omega
  have h2 := hspec i hi
  have hnedge : ¬(i < window / 2 ∨ points.length - window / 2 - 1 < i) := by
    rw [smooth_edge_iff hw hl hi]; omega
  rw [smoothAt, if_neg hnedge] at h2
  cases htime : (points.getD i default).time with
  | absent => rw [htime] at h2; exact absurd h2 (by simp)
  | null =>
    rw [htime] at h2
    have h3 := (Except.ok.injEq _ _ ▸ h2)
    rw [← h3]
    exact ⟨rfl, rfl⟩
  | val t =>
    rw [htime] at h2
    have h3 := (Except.ok.injEq _ _ ▸ h2)
    rw [← h3]
    exact ⟨rfl, rfl⟩

/-- C6 witness: the amended theorem applied to a concrete track whose
center point has `time = None`: its `time` entry is kept and its `speed`
key is absent on the smoothed point. -/
theorem smooth_track_interior_time_kept_speed_dropped_witness :
    (trackMidSpeed.getD 1 default).time = Field.null ∧
    ((([pNull, pNull, pNull] : List TrackPoint).getD 1 default).time =
        (trackMidSpeed.getD 1 default).time ∧
      (([pNull, pNull, pNull] : List TrackPoint).getD 1 default).speed = Field.absent) :=
  ⟨by decide,
   smooth_track_interior_time_kept_speed_dropped trackMidSpeed 3 [pNull, pNull, pNull]
     (by decide) (by decide) (by decide)
     (by
       norm_num [smooth_track, mapExcept, smoothAt, windowLatSum, windowLonSum, trackMidSpeed,
         pNull, pSpeed, List.range_succ, Bind.bind, Except.bind, List.getD, TrackPoint.mk.injEq])
     1 (by decide) (by decide)⟩

/-- C6 counterexample: the claim as stated is false — smoothing
`trackMidSpeed` (center speed 5) with window 3 yields a center point with
no `speed` key at all, not one carrying speed 5. -/
theorem smooth_track_drops_speed_cx :
    smooth_track trackMidSpeed 3 = .ok [pNull, pNull, pNull] ∧
    (trackMidSpeed.getD 1 default).speed = .val 5 ∧ pNull.speed = .absent := by
  refine ⟨?_, by decide, by decide⟩
  norm_num [smooth_track, mapExcept, smoothAt, windowLatSum, windowLonSum, trackMidSpeed,
    pNull, pSpeed, List.range_succ, Bind.bind, Except.bind, List.getD, TrackPoint.mk.injEq]

/-- C10: `smooth_track` is total exactly under the precondition that
every point carries a `time` key — any track whose points all have
`time` smooths without error (whatever the window), while the concrete
three-point track whose middle point lacks `time` hits the
`points[i]['time']` lookup and raises `KeyError`. -/
theorem smooth_track_time_precondition :
    (∀ (points : List TrackPoint) (window : ℕ), (∀ p ∈ points, p.time ≠ .absent) →
      ∃ out, smooth_track points window = .ok out) ∧
    smooth_track trackMissingTime 3 = .error .keyError := by
  refine ⟨fun points window ht => smooth_track_total_of_times ht, ?_⟩
  norm_num [smooth_track, mapExcept, smoothAt, windowLatSum, windowLonSum, trackMissingTime,
    pNull, pNoTime, List.range_succ, Bind.bind, Except.bind, List.getD]

/-- C10 witness: the totality half applied to a concrete all-timed
track. -/
theorem smooth_track_time_precondition_witness :
    ∃ out, smooth_track [pNull, pNull, pNull] 3 = .ok out :=
  smooth_track_time_precondition.1 [pNull, pNull, pNull] 3 (by decide)

/-- C4: evaluating the densifier at the failing input: a single-point
track comes back with its sole original point duplicated (`interpolated`
starts as `[points[0]]` and the final `interpolated.append(points[-1])`
appends the same point again; for longer tracks the loop's
`interpolated.append(p1)` at `i = 0` duplicates the first point in the
same way), so the output is not a duplicate-free superset. -/
theorem interpolate_track_duplicates_first_point :
    interpolate_track [pNull] 1 = .ok [pNull, pNull] := by
  simp [interpolate_track, interpPairs, Bind.bind, Except.bind]

/-- C2: a 502, 503, or 504 response makes the map-match adapter return
the original chunk unchanged (passthrough, a success outcome), not
`None`. -/
theorem adapter_unavailable_passthrough (chunk : List TrackPoint) (res : HttpResponse)
    (h : res.status = 502 ∨ res.status = 503 ∨ res.status = 504) :
    process_chunk_with_valhalla chunk (some res) = some chunk := by
  have hne : res.status ≠ 200 := by rcases h with h | h | h <;> omega
  simp [process_chunk_with_valhalla, hne, h]

/-- C2 witness: the theorem applied to a concrete 503 response. -/
theorem adapter_unavailable_passthrough_witness :
    process_chunk_with_valhalla [pNull] (some ⟨503, none⟩) = some [pNull] :=
  adapter_unavailable_passthrough [pNull] ⟨503, none⟩ (Or.inr (Or.inl rfl))

/-- C1 counterexample: the claim as stated is false — a status-200
response with an explicit `error_message` field, and a status-200
response whose body does not parse as JSON, both make the adapter return
the original chunk (passthrough), not `None`. -/
theorem adapter_error_payload_not_null_cx :
    process_chunk_with_valhalla [pNull] (some ⟨200, some ⟨false, true, none, none, none⟩⟩) =
      some [pNull] ∧
    process_chunk_with_valhalla [pNull] (some ⟨200, none⟩) = some [pNull] ∧
    (some [pNull] : Option (List TrackPoint)) ≠ none := by
  refine ⟨by decide, by decide, by decide⟩

/-- C1 (amended): a non-2xx HTTP status other than 502/503/504 is logged
and reported as a failed match (`None`); but a response body that cannot
be parsed as JSON, and a response with an explicit `error_message` field,
are logged and the original chunk is returned (passthrough), not
`None`. -/
theorem adapter_error_handling (chunk : List TrackPoint) (res : HttpResponse) :
    (res.status < 200 ∨ 300 ≤ res.status →
      res.status ≠ 502 → res.status ≠ 503 → res.status ≠ 504 →
      process_chunk_with_valhalla chunk (some res) = none) ∧
    (res.status = 200 → res.json = none →
      process_chunk_with_valhalla chunk (some res) = some chunk) ∧
    (∀ data, res.status = 200 → res.json = some data → data.has_error_message = true →
      process_chunk_with_valhalla chunk (some res) = some chunk) := by
  refine ⟨?_, ?_, ?_⟩
  · intro h h2 h3 h4
    have hne : res.status ≠ 200 := by omega
    have hno : ¬(res.status = 502 ∨ res.status = 503 ∨ res.status = 504) := by tauto
    simp [process_chunk_with_valhalla, hne, hno]
  · intro h hj
    simp [process_chunk_with_valhalla, h, hj]
  · intro data h hj he
    simp [process_chunk_with_valhalla, h, hj, he]

/-- C1 witness: the amended theorem applied to a concrete 404 response
(first arm). -/
theorem adapter_error_handling_witness :
    process_chunk_with_valhalla [pNull] (some ⟨404, none⟩) = none :=
  (adapter_error_handling [pNull] ⟨404, none⟩).1 (Or.inr (by norm_num))
    (by decide) (by decide) (by decide)

/-- The `processed_chunks` accumulator factors out of the chunk loop. -/
theorem processLoop_append (matchFn : List TrackPoint → Option (List TrackPoint)) :
    ∀ (chunks : List (List TrackPoint)) (acc : List (List TrackPoint)),
      processLoop matchFn acc chunks = acc ++ processLoop matchFn [] chunks := by
  intro chunks
  induction chunks with
  | nil => intro acc; simp [processLoop]
  | cons chunk rest ih =>
    intro acc
    rw [processLoop, processLoop]
    cases hm : matchOk (matchFn chunk) with
    | some cs =>
      simp only [hm]
      conv_rhs => rw [ih]
      rw [ih]
      simp
    | none =>
      simp only [hm]
      by_cases hlen : 1000 < chunk.length
      · simp only [if_pos hlen]
        conv_rhs => rw [ih]
        rw [ih]
        simp
      · simp only [if_neg hlen]
        exact ih acc

/-- C3 (amended): for a chunk whose map-match fails, the orchestrator
retries it subdivided only when it is longer than 1000 points — with
sub-chunks of `min(1000, len // 2)` points overlapping by a fifth of
that, appending the successful sub-matches and omitting the failing ones
— while a failed chunk of at most 1000 points is dropped outright with
no retry; in either case the loop is a total function over the remaining
chunks (no failure is raised). -/
theorem process_track_retry_policy
    (matchFn : List TrackPoint → Option (List TrackPoint)) (chunk : List TrackPoint)
    (rest : List (List TrackPoint)) (hfail : matchOk (matchFn chunk) = none) :
    (processTrackChunks matchFn (chunk :: rest) =
      chunkContribution matchFn chunk ++ processTrackChunks matchFn rest) ∧
    (chunk.length ≤ 1000 →
      processTrackChunks matchFn (chunk :: rest) = processTrackChunks matchFn rest) ∧
    (1000 < chunk.length →
      processTrackChunks matchFn (chunk :: rest) =
        ((chunk_track chunk (min 1000 (chunk.length / 2))
            (min 1000 (chunk.length / 2) / 5)).filterMap
          fun sub_chunk => matchOk (matchFn sub_chunk)) ++
          processTrackChunks matchFn rest) := by
  have hmain : processTrackChunks matchFn (chunk :: rest) =
      chunkContribution matchFn chunk ++ processTrackChunks matchFn rest := by
    rw [processTrackChunks, processTrackChunks, processLoop, hfail]
    simp only [hfail, chunkContribution]
    by_cases hlen : 1000 < chunk.length
    · rw [if_pos hlen, if_pos hlen, processLoop_append]
      simp
    · rw [if_neg hlen, if_neg hlen]
      simp
  refine ⟨hmain, ?_, ?_⟩
  · intro hle
    rw [hmain, chunkContribution, hfail]
    simp only [if_neg (by omega : ¬1000 < chunk.length)]
    simp
  · intro hgt
    rw [hmain, chunkContribution, hfail]
    simp only [if_pos hgt]

/-- C3 witness: the amended theorem applied to the concrete failed
6-point chunk (dropped without retry). -/
theorem process_track_retry_policy_witness :
    processTrackChunks oracleSix [chunkSix] = processTrackChunks oracleSix [] :=
  (process_track_retry_policy oracleSix chunkSix [] (by decide)).2.1 (by decide)

/-- C3 counterexample: the claim as stated is false — the 6-point chunk
`chunkSix` fails its match and both its halves would succeed under the
oracle (which matches every other chunk with a 5-point result), yet the
orchestrator performs no retry at all: the processed list stays empty. -/
theorem process_track_no_retry_small_chunk_cx :
    processTrackChunks oracleSix [chunkSix] = [] ∧
    oracleSix (chunkSix.take 3) = some matchedFive ∧
    oracleSix (chunkSix.drop 3) = some matchedFive ∧
    5 ≤ matchedFive.length := by
  refine ⟨by decide, by decide, by decide, by decide⟩

/-- `atan2(0, 1)` is zero (first quadrant, `arctan 0`). -/
theorem atan2_zero_one : atan2 0 1 = 0 := by
  rw [atan2, if_pos (by norm_num : (0:ℝ) < 1)]
  norm_num

/-- The haversine distance from a point to itself is zero. -/
theorem haversine_self (lat lon : ℚ) : haversine lat lon lat lon = 0 := by
  simp [haversine, radians, atan2_zero_one]

/-- C7 (amended): the services stitcher maps the empty chunk list to the
empty track, a single chunk to itself, and two chunks whose adjacent
endpoints coincide exactly (distance 0, hence below the 10 m threshold)
to the first chunk followed by the second chunk minus its first point —
no duplicate at the seam. (The legacy windowed stitcher in `app.py`
violates the last part, see the counterexample.) -/
theorem stitcher_props :
    connect_processed_chunks [] = .ok [] ∧
    (∀ c, connect_processed_chunks [c] = .ok c) ∧
    (∀ (A B : List TrackPoint) (pa pb : TrackPoint),
      A.getLast? = some pa → B.head? = some pb →
      pa.lat = pb.lat → pa.lon = pb.lon →
      connect_processed_chunks [A, B] = .ok (A ++ B.tail)) := by
  refine ⟨rfl, fun c => rfl, ?_⟩
  intro A B pa pb hA hB hplat hplon
  cases B with
  | nil => simp at hB
  | cons b btail =>
    have hb : b = pb := by simpa using hB
    subst hb
    show connectLoop A [b :: btail] = .ok (A ++ btail)
    rw [connectLoop, hA]
    have hz : haversine pa.lat pa.lon b.lat b.lon = 0 := by
      rw [← hplat, ← hplon]; exact haversine_self pa.lat pa.lon
    simp only [hz]
    rw [if_pos (by norm_num : (0:ℝ) < 10)]
    rw [connectLoop]

/-- C7 witness: the amended theorem applied to two concrete single-point
chunks with exactly coinciding endpoints. -/
theorem stitcher_props_witness :
    connect_processed_chunks [[pNull], [pNull]] =
      .ok ([pNull] ++ ([pNull] : List TrackPoint).tail) :=
  stitcher_props.2.2 [pNull] [pNull] pNull pNull rfl rfl rfl rfl

/-- C7 counterexample: the claim as stated is false of the `app.py`
stitcher — two single-point chunks whose endpoints coincide exactly
(distance 0) stitch to a track containing the seam point twice. -/
theorem stitcher_app_duplicates_seam_cx :
    connect_processed_chunks_app [[(0, 0)], [(0, 0)]] = [(0, 0), (0, 0)] := by
  show appConnectLoop [((0 : ℚ), (0 : ℚ))] [[((0 : ℚ), (0 : ℚ))]] = [(0, 0), (0, 0)]
  rw [appConnectLoop, appConnectLoop, appConnectStep]
  rw [if_neg (by decide : ¬([((0 : ℚ), (0 : ℚ))] = ([] : List (ℚ × ℚ))))]
  rw [if_neg (by decide :
    ¬(10 < ([((0 : ℚ), (0 : ℚ))] : List (ℚ × ℚ)).length ∧
      10 < ([((0 : ℚ), (0 : ℚ))] : List (ℚ × ℚ)).length))]
  decide

/-- A constant stand-in for the external spline interpolator; its values
are irrelevant to the inputs it is used with here. -/
noncomputable def zeroSpline : List ℝ → List ℝ → ℝ → ℝ := fun _ _ _ => 0

/-- C5: evaluating `refine_points` at the failing input — a two-point
track in which no point has a known speed (and no time anchors): the
speed-fill loop calls `round(interpolate_speed_idw(...), 1)` on a `None`
estimate and raises `TypeError`, instead of leaving every speed null. -/
theorem refine_points_no_known_speed_raises :
    refine_points zeroSpline [pNull, pNull] [] none 4 = .error .typeError := by
  norm_num [refine_points, cumdistList, cumdistFrom, copyKnownTimes, pyRange, splineChunks,
    linearFillLoop, scanNext, speedFill, interpolate_speed_idw, Bind.bind, Except.bind, pNull,
    List.replicate, List.range_succ, List.getD, Field.get?]

/-! ### Positive-semidefiniteness invariant of the EKF covariance -/

theorem Qmat_posSemidef (dt : ℝ) : (Qmat dt).PosSemidef := by
  constructor
  · ext i j
    fin_cases i <;> fin_cases j <;>
      simp [Qmat, Matrix.conjTranspose_apply]
  · intro x
    have hexp : Matrix.dotProduct (star x) ((Qmat dt).mulVec x) =
        (1 / 4 : ℝ) * ((dt ^ 2 / 2 * x 0 + dt * x 2) ^ 2 + (dt ^ 2 / 2 * x 1 + dt * x 3) ^ 2) := by
      simp [Qmat, Matrix.dotProduct, Matrix.mulVec, Fin.sum_univ_four]
      ring
    rw [hexp]
    positivity

theorem Rmat_posDef : Rmat.PosDef := by
  have h : Rmat = Matrix.diagonal ![25, 25] := by
    ext i j
    fin_cases i <;> fin_cases j <;> norm_num [Rmat, Matrix.diagonal]
  rw [h]
  refine Matrix.PosDef.diagonal ?_
  intro i
  fin_cases i <;> norm_num

theorem P0_posSemidef : ((10 : ℝ) • (1 : Matrix (Fin 4) (Fin 4) ℝ)).PosSemidef := by
  have h : (10 : ℝ) • (1 : Matrix (Fin 4) (Fin 4) ℝ) = Matrix.diagonal (fun _ => 10) := by
    ext i j
    by_cases hij : i = j <;> simp [Matrix.one_apply, Matrix.diagonal, hij]
  rw [h]
  exact Matrix.PosSemidef.diagonal (by intro i; norm_num)

theorem predict_posSemidef (dt : ℝ) {P : Matrix (Fin 4) (Fin 4) ℝ} (hP : P.PosSemidef) :
    (Fmat dt * P * (Fmat dt).transpose + Qmat dt).PosSemidef := by
  have h1 : (Fmat dt).transpose = (Fmat dt).conjTranspose :=
    (Matrix.conjTranspose_eq_transpose_of_trivial _).symm
  rw [h1]
  exact (hP.mul_mul_conjTranspose_same (Fmat dt)).add (Qmat_posSemidef dt)

theorem innov_posDef {P : Matrix (Fin 4) (Fin 4) ℝ} (hP : P.PosSemidef) :
    (Hmat * P * Hmat.transpose + Rmat).PosDef := by
  have h1 : Hmat.transpose = Hmat.conjTranspose :=
    (Matrix.conjTranspose_eq_transpose_of_trivial _).symm
  rw [h1]
  exact Matrix.PosDef.posSemidef_add (hP.mul_mul_conjTranspose_same Hmat) Rmat_posDef

/-- The Joseph-form argument: the posterior covariance
`(I - K H) P` with the optimal gain `K = P Hᵀ S⁻¹` equals
`(I - K H) P (I - K H)ᴴ + K R Kᴴ` and is therefore again positive
semidefinite. -/
theorem update_posSemidef {P : Matrix (Fin 4) (Fin 4) ℝ} (hP : P.PosSemidef) :
    ((1 - P * Hmat.transpose * (Hmat * P * Hmat.transpose + Rmat)⁻¹ * Hmat) * P).PosSemidef := by
  have htr : Hmat.transpose = Hmat.conjTranspose :=
    (Matrix.conjTranspose_eq_transpose_of_trivial _).symm
  rw [htr]
  set S := Hmat * P * Hmat.conjTranspose + Rmat with hS
  set K := P * Hmat.conjTranspose * S⁻¹ with hK
  have hSpd : S.PosDef :=
    Matrix.PosDef.posSemidef_add (hP.mul_mul_conjTranspose_same Hmat) Rmat_posDef
  have hdet : IsUnit S.det := hSpd.det_pos.ne'.isUnit
  have hKS : K * S = P * Hmat.conjTranspose := by
    rw [hK, Matrix.mul_assoc, Matrix.nonsing_inv_mul S hdet, Matrix.mul_one]
  have hHPH : Hmat * P * Hmat.conjTranspose = S - Rmat := by
    rw [hS, add_sub_cancel_right]
  have hBPH : (1 - K * Hmat) * (P * Hmat.conjTranspose) = K * Rmat := by
    have expand : (1 - K * Hmat) * (P * Hmat.conjTranspose)
        = P * Hmat.conjTranspose - K * (Hmat * P * Hmat.conjTranspose) := by
      simp only [Matrix.sub_mul, Matrix.one_mul, Matrix.mul_assoc]
    rw [expand, hHPH, Matrix.mul_sub, hKS]
    abel
  have joseph : (1 - K * Hmat) * P
      = (1 - K * Hmat) * P * (1 - K * Hmat).conjTranspose + K * Rmat * K.conjTranspose := by
    have hBt : (1 - K * Hmat).conjTranspose = 1 - Hmat.conjTranspose * K.conjTranspose := by
      simp [Matrix.conjTranspose_sub, Matrix.conjTranspose_mul]
    rw [hBt]
    have expand2 : (1 - K * Hmat) * P * (1 - Hmat.conjTranspose * K.conjTranspose)
        = (1 - K * Hmat) * P
          - ((1 - K * Hmat) * (P * Hmat.conjTranspose)) * K.conjTranspose := by
      simp only [Matrix.mul_sub, Matrix.mul_one, Matrix.mul_assoc]
    rw [expand2, hBPH]
    abel
  rw [joseph]
  exact (hP.mul_mul_conjTranspose_same (1 - K * Hmat)).add
    (Rmat_posDef.posSemidef.mul_mul_conjTranspose_same K)

/-- One EKF step always succeeds on a positive-semidefinite covariance
(the innovation covariance is positive definite, hence invertible), and
preserves positive semidefiniteness. -/
theorem ekfStep_ok (rl rn ls os : ℝ) (prev cur : TrackPoint) (s : KalmanState)
    (hP : s.P.PosSemidef) :
    ∃ s' p, ekfStep rl rn ls os prev cur s = .ok (s', p) ∧ s'.P.PosSemidef := by
  set dt : ℝ := ((ekfDt prev cur : ℚ) : ℝ) with hdt
  have hPpred : (Fmat dt * s.P * (Fmat dt).transpose + Qmat dt).PosSemidef :=
    predict_posSemidef dt hP
  have hSdet :
      ¬(Hmat * (Fmat dt * s.P * (Fmat dt).transpose + Qmat dt) * Hmat.transpose + Rmat).det = 0 :=
    (innov_posDef hPpred).det_pos.ne'
  simp only [ekfStep, ← hdt]
  rw [if_neg hSdet]
  exact ⟨_, _, rfl, update_posSemidef hPpred⟩

/-- The EKF measurement loop succeeds and yields one output per input
whenever the incoming covariance is positive semidefinite. -/
theorem ekfLoop_ok (rl rn ls os : ℝ) :
    ∀ (rest : List TrackPoint) (s : KalmanState) (prev : TrackPoint), s.P.PosSemidef →
      ∃ out, ekfLoop rl rn ls os s prev rest = .ok out ∧ out.length = rest.length := by
  intro rest
  induction rest with
  | nil => intro s prev _; exact ⟨[], rfl, rfl⟩
  | cons cur rest ih =>
    intro s prev hP
    obtain ⟨s', p, hstep, hP'⟩ := ekfStep_ok rl rn ls os prev cur s hP
    obtain ⟨out, hloop, hlen⟩ := ih s' cur hP'
    refine ⟨p :: out, ?_, by simp [hlen]⟩
    rw [ekfLoop, hstep]
    simp [hloop]

/-- C9: the elapsed time used by `ekf_smooth_track` for a consecutive
pair is clamped to 1.0 s when a timestamp is missing or when the
difference is non-positive; consequently (and because the innovation
covariance stays positive definite along the covariance recursion) the
filter never raises and produces exactly one output point per input
point, for every input track. -/
theorem ekf_dt_clamped_and_total :
    (∀ prev cur : TrackPoint,
      cur.time.get? = none ∨ prev.time.get? = none → ekfDt prev cur = 1) ∧
    (∀ (prev cur : TrackPoint) (tc tp : ℚ), cur.time.get? = some tc →
      prev.time.get? = some tp → tc - tp ≤ 0 → ekfDt prev cur = 1) ∧
    (∀ track_points : List TrackPoint,
      ∃ out, ekf_smooth_track track_points = .ok out ∧
        out.length = track_points.length) := by
  refine ⟨?_, ?_, ?_⟩
  · intro prev cur h
    rw [ekfDt]
    rcases h with h | h
    · rw [h]
    · rw [h]
      cases cur.time.get? <;> rfl
  · intro prev cur tc tp hc hp hle
    rw [ekfDt, hc, hp]
    simp [hle]
  · intro pts
    cases pts with
    | nil => exact ⟨[], rfl, rfl⟩
    | cons p0 rest =>
      obtain ⟨out, hloop, hlen⟩ :=
        ekfLoop_ok (p0.lat : ℝ) (p0.lon : ℝ) 111320 (111320 * Real.cos (radians (p0.lat : ℝ)))
          rest ⟨![0, 0, 0, 0], (10 : ℝ) • 1⟩ p0 P0_posSemidef
      refine ⟨{ elat := (p0.lat : ℝ), elon := (p0.lon : ℝ), etime := p0.time.get?,
                vx := 0, vy := 0 } :: out, ?_, ?_⟩
      · simp only [ekf_smooth_track, hloop]
      · simp [hlen]

/-- C9 witness: the clamp applied to a concrete pair with a negative
elapsed time, and totality applied to a concrete two-point track. -/
theorem ekf_dt_clamped_and_total_witness :
    ekfDt ⟨0, 0, .val 5, .absent, .absent⟩ ⟨0, 0, .val 3, .absent, .absent⟩ = 1 ∧
    (∃ out, ekf_smooth_track [pNull, pNoTime] = .ok out ∧
      out.length = ([pNull, pNoTime] : List TrackPoint).length) :=
  ⟨ekf_dt_clamped_and_total.2.1 ⟨0, 0, .val 5, .absent, .absent⟩
      ⟨0, 0, .val 3, .absent, .absent⟩ 3 5 rfl rfl (by norm_num),
   ekf_dt_clamped_and_total.2.2 [pNull, pNoTime]⟩

end Gps
